import Mathlib

/-!
Verification of the MONAI MMAR loading utilities
(`monai/apps/mmars/mmars.py` and `monai/apps/mmars/model_desc.py`).

The Python code is shallowly embedded: Python dictionaries become ordered
association lists `List (String × PyVal)` (Python dict keys are unique and
iteration follows insertion order), Python values become the inductive type
`PyVal`, fallible operations return `Except String`, and side effects that
the claims mention (opening the sibling JSON config file, searching the raw
weights dictionary, printed diagnostics, emitted warnings) are made explicit
in the result types.
-/

set_option autoImplicit false

namespace Mmars

/-- A Python value as far as the MMAR loading code observes it:
`pynone` is Python `None`, `pydict` is a dict in insertion order. -/
inductive PyVal : Type where
  | pynone : PyVal
  | pyint : Int → PyVal
  | pystr : String → PyVal
  | pybool : Bool → PyVal
  | pydict : List (String × PyVal) → PyVal

/-- Python `x is None` (an identity test against the `None` singleton). -/
def PyVal.isNone : PyVal → Bool
  | PyVal.pynone => true
  | _ => false

/-- Python `isinstance(x, Mapping)` for the embedded values. -/
def PyVal.isMapping : PyVal → Bool
  | PyVal.pydict _ => true
  | _ => false

/-- Python truthiness (`bool(x)`) for the embedded values: `None`, `0`, the
empty string, `False` and the empty dict are falsy. -/
def truthy : PyVal → Bool
  | PyVal.pynone => false
  | PyVal.pyint n => !(n == 0)
  | PyVal.pystr s => !(s == "")
  | PyVal.pybool b => b
  | PyVal.pydict l => !l.isEmpty

/-- The empty Python dict `\x7b\x7d`, used as the `default=` argument of the
`_get_val` calls inside `load_from_mmar`. -/
def emptyDict : PyVal := PyVal.pydict []

/-- Python `key in d` / `d[key]` on a dict: first (unique) binding of `key`. -/
def lookup? : List (String × PyVal) → String → Option PyVal
  | [], _ => Option.none
  | (k, v) :: rest, key => if k = key then some v else lookup? rest key

mutual

/-- Embedding of `_get_val(input_dict, key, default)` from `mmars.py`:
return the direct entry if `key in input_dict`, else scan the entries in
order, recursing into each `Mapping`-valued entry; a recursive result is
kept only when it `is not None`; otherwise return `default`. -/
def get_val (input_dict : List (String × PyVal)) (key : String) (default : PyVal) : PyVal :=
  match lookup? input_dict key with
  | some v => v
  | Option.none => get_val_loop input_dict key default
termination_by (sizeOf input_dict, 1)

/-- The `for sub_dict in input_dict` loop of `_get_val`. -/
def get_val_loop (l : List (String × PyVal)) (key : String) (default : PyVal) : PyVal :=
  match l with
  | [] => default
  | (_, v) :: rest =>
    match v with
    | PyVal.pydict sub =>
      let found := get_val sub key PyVal.pynone
      if found.isNone then get_val_loop rest key default else found
    | _ => get_val_loop rest key default
termination_by (sizeOf l, 0)

end

/-- One pass of the `for` loop of `_get_val`, with the recursive descent
into sub-dictionaries abstracted as `rec`; `rec` returns `Option.none` when
its recursion-depth budget is exhausted, and `some r` when the Python call
would return `r`. Used to state that `_get_val` terminates within a budget
bounded by the size of its (finite, acyclic) input. -/
def get_val_loopF (rec : List (String × PyVal) → Option PyVal) :
    List (String × PyVal) → PyVal → Option PyVal
  | [], default => some default
  | (_, v) :: rest, default =>
    match v with
    | PyVal.pydict sub =>
      match rec sub with
      | Option.none => Option.none
      | some found => if found.isNone then get_val_loopF rec rest default else some found
    | _ => get_val_loopF rec rest default

/-- Depth-budgeted version of `_get_val`: `fuel` bounds how many nested
dictionary levels the search may descend through; `Option.none` means the
budget was exhausted before the Python function would have returned. -/
def get_valF : Nat → List (String × PyVal) → String → PyVal → Option PyVal
  | 0, _, _, _ => Option.none
  | fuel + 1, input_dict, key, default =>
    match lookup? input_dict key with
    | some v => some v
    | Option.none =>
      get_val_loopF (fun sub => get_valF fuel sub key PyVal.pynone) input_dict default

mutual

/-- Whether `key` occurs as a dictionary key anywhere in the nested
structure (at any depth). Specification-side notion of "the mapping
contains an entry for the key". -/
def hasKeyDeep (l : List (String × PyVal)) (key : String) : Bool :=
  match l with
  | [] => false
  | (a, v) :: rest => a == key || hasKeyDeepV v key || hasKeyDeep rest key
termination_by sizeOf l

/-- Whether `key` occurs as a dictionary key anywhere inside the value `v`. -/
def hasKeyDeepV (v : PyVal) (key : String) : Bool :=
  match v with
  | PyVal.pydict l => hasKeyDeep l key
  | _ => false
termination_by sizeOf v

end

/-- The results, in iteration order, of recursing `_get_val` fully into each
`Mapping`-valued direct entry of the dictionary. Specification-side notion
used to characterise the loop of `_get_val`. -/
def nestedResults (l : List (String × PyVal)) (key : String) : List PyVal :=
  l.filterMap (fun e =>
    match e.2 with
    | PyVal.pydict sub => some (get_val sub key PyVal.pynone)
    | _ => Option.none)

theorem one_le_sizeOf_list (l : List (String × PyVal)) : 1 ≤ sizeOf l := by
  cases l with
  | nil => simp
  | cons e rest => simp; omega

theorem get_val_loopF_complete (f : Nat)
    (ih : ∀ g, g < f + 1 → ∀ (m : List (String × PyVal)) (key : String) (d : PyVal),
      sizeOf m ≤ g → get_valF g m key d = some (get_val m key d))
    (key : String) :
    ∀ (l : List (String × PyVal)) (d : PyVal), sizeOf l ≤ f + 1 →
      get_val_loopF (fun sub => get_valF f sub key PyVal.pynone) l d =
        some (get_val_loop l key d) := by
  intro l
  induction l with
  | nil => intro d _; simp [get_val_loopF, get_val_loop]
  | cons e rest ihl =>
    intro d hs
    obtain ⟨a, v⟩ := e
    have hrest : sizeOf rest ≤ f + 1 := by
      simp only [List.cons.sizeOf_spec, Prod.mk.sizeOf_spec] at hs; omega
    cases v with
    | pydict sub =>
      have hsub : sizeOf sub ≤ f := by
        simp only [List.cons.sizeOf_spec, Prod.mk.sizeOf_spec, PyVal.pydict.sizeOf_spec] at hs
        omega
      have hrec := ih f (Nat.lt_succ_self f) sub key PyVal.pynone hsub
      rw [get_val_loopF, get_val_loop]
      rw [hrec]
      cases hfound : (get_val sub key PyVal.pynone).isNone with
      | true => simpa [hfound] using ihl d hrest
      | false => simp [hfound]
    | pynone => simpa [get_val_loopF, get_val_loop] using ihl d hrest
    | pyint n => simpa [get_val_loopF, get_val_loop] using ihl d hrest
    | pystr s => simpa [get_val_loopF, get_val_loop] using ihl d hrest
    | pybool b => simpa [get_val_loopF, get_val_loop] using ihl d hrest

theorem get_valF_complete :
    ∀ (fuel : Nat) (m : List (String × PyVal)) (key : String) (d : PyVal),
      sizeOf m ≤ fuel → get_valF fuel m key d = some (get_val m key d) := by
  intro fuel
  induction fuel using Nat.strong_induction_on with
  | _ fuel ih =>
    match fuel with
    | 0 =>
      intro m key d hm
      exact absurd hm (by have := one_le_sizeOf_list m; omega)
    | Nat.succ f =>
      intro m key d hm
      rw [get_valF, get_val]
      cases hl : lookup? m key with
      | some v => simp
      | none =>
        simp only []
        exact get_val_loopF_complete f (fun g hg => ih g hg) key m d hm

/-- The descriptor's sibling JSON config file, as `load_from_mmar` sees it:
either it parses to a dictionary, or opening/parsing it raises. -/
inductive JsonSource : Type where
  | avail : List (String × PyVal) → JsonSource
  | unreadable : JsonSource

/-- Exception raised when the sibling JSON config file cannot be opened. -/
def jsonOpenError : String := "FileNotFoundError: could not open the config file"

/-- Exception raised by `_get_val` when its argument is not iterable
(the `train_conf` entry of the weights dictionary is not a `Mapping`).
The several Python `TypeError` texts are collapsed into one message. -/
def typeError : String := "TypeError: train_conf entry does not support membership test"

/-- Python interpolation of an optional string, as in the f-string of the
`ValueError` of `load_from_mmar`: `None` prints as the text `None`. -/
def pyFormatOpt : Option String → String
  | some s => s
  | Option.none => "None"

/-- The `ValueError` message of `load_from_mmar` when no usable model config
was found: it interpolates `item.get(Keys.CONFIG_FILE)` and
`item.get(Keys.MODEL_FILE)`. -/
def configErrorMsg (config_file model_file : Option String) : String :=
  "Could not load model config dictionary from config: " ++ pyFormatOpt config_file ++
    ", or from model file: " ++ pyFormatOpt model_file ++ "."

/-- The final guard of the config search in `load_from_mmar`:
`if not (model_config and isinstance(model_config, Mapping)): raise ValueError(...)`. -/
def finalCheck (config_file model_file : Option String) (c : PyVal) : Except String PyVal :=
  if truthy c && c.isMapping then Except.ok c
  else Except.error (configErrorMsg config_file model_file)

/-- Step 1 of the config search:
`_get_val(dict(model_dict).get("train_conf", \x7b\x7d), key=model_key, default=\x7b\x7d)`.
When the `train_conf` entry exists but is not a `Mapping`, `_get_val` raises
a `TypeError` (except that iterating an empty string returns the default). -/
def step1 (model_dict : List (String × PyVal)) (model_key : String) : Except String PyVal :=
  match (lookup? model_dict "train_conf").getD emptyDict with
  | PyVal.pydict tc => Except.ok (get_val tc model_key emptyDict)
  | PyVal.pystr s => if s.isEmpty && !model_key.isEmpty then Except.ok emptyDict
                     else Except.error typeError
  | _ => Except.error typeError

/-- Outcome of the three-source config search of `load_from_mmar`, with the
observable side effects made explicit: whether the sibling JSON config file
was opened, and whether the raw weights dictionary was searched. -/
structure ConfigTrace : Type where
  result : Except String PyVal
  openedJson : Bool
  searchedModelDict : Bool

/-- The config-resolution section of `load_from_mmar` (steps 1–3 and the
final guard): search `train_conf` first; if the result is falsy, open and
search the sibling JSON config file; if still falsy, search the whole
weights dictionary; then apply the final guard. -/
def resolveConfig (model_dict : List (String × PyVal)) (json : JsonSource)
    (model_key : String) (config_file model_file : Option String) : ConfigTrace :=
  match step1 model_dict model_key with
  | Except.error e => ⟨Except.error e, false, false⟩
  | Except.ok c1 =>
    if truthy c1 then ⟨finalCheck config_file model_file c1, false, false⟩
    else
      match json with
      | JsonSource.unreadable => ⟨Except.error jsonOpenError, true, false⟩
      | JsonSource.avail conf =>
        let c2 := get_val conf model_key emptyDict
        if truthy c2 then ⟨finalCheck config_file model_file c2, true, false⟩
        else ⟨finalCheck config_file model_file (get_val model_dict model_key emptyDict),
              true, true⟩

/-- Python `s.endswith(suf)` (the `.ts` suffix test of `load_from_mmar`),
over the character lists of the strings so that it evaluates inside the
kernel. -/
def pyEndsWith (s suf : String) : Bool :=
  decide (suf.data.length ≤ s.data.length) &&
    s.data.drop (s.data.length - suf.data.length) == suf.data

/-- Warning emitted on the TorchScript path when `pretrained=False`. -/
def pretrainedWarning : String := "Loading a ScriptModule, 'pretrained' option ignored."

/-- Warning emitted on the TorchScript path when `weights_only=True`. -/
def weightsOnlyWarning : String := "Loading a ScriptModule, 'weights_only' option ignored."

/-- Result of `load_from_mmar` after the archive has been downloaded and
the weights file deserialized: a TorchScript module (with the warnings the
call emitted), the raw weights value, an instantiated model built from the
resolved config, or a raised exception. -/
inductive LoadResult : Type where
  | scriptModule : List String → LoadResult
  | weights : PyVal → LoadResult
  | model : PyVal → Bool → LoadResult
  | failure : String → LoadResult

/-- The post-download portion of `load_from_mmar`: branch on the `.ts`
suffix of the model file, then on `weights_only`, then resolve the model
config. Model instantiation is abstracted as `LoadResult.model` carrying
the resolved config and the `pretrained` flag. -/
def load_from_mmar_core (model_file_path : String) (pretrained weights_only : Bool)
    (model_dict : List (String × PyVal)) (json : JsonSource) (model_key : String)
    (config_file model_file : Option String) : LoadResult :=
  if pyEndsWith model_file_path ".ts" then
    LoadResult.scriptModule
      ((if pretrained then [] else [pretrainedWarning]) ++
        (if weights_only then [weightsOnlyWarning] else []))
  else if weights_only then
    LoadResult.weights ((lookup? model_dict model_key).getD (PyVal.pydict model_dict))
  else
    match (resolveConfig model_dict json model_key config_file model_file).result with
    | Except.error e => LoadResult.failure e
    | Except.ok cfg => LoadResult.model cfg pretrained

/-- A remote MMAR descriptor: one entry of the `MODEL_DESC` table of
`model_desc.py` (`RemoteMMARKeys` fields; a missing optional key is
`Option.none`). -/
structure ModelDesc : Type where
  id : String
  name : String
  url : String
  doc : String
  file_type : String
  hash_type : String
  hash_val : Option String
  model_file : String
  config_file : Option String
deriving DecidableEq

/-- The constant `MODEL_DESC` tuple of `model_desc.py`, in source order
(`os.path.join` rendered with the `/` separator). -/
def MODEL_DESC : List ModelDesc :=
  [ { id := "clara_pt_prostate_mri_segmentation_1",
      name := "clara_pt_prostate_mri_segmentation",
      url := "https://api.ngc.nvidia.com/v2/models/nvidia/med/clara_pt_prostate_mri_segmentation/versions/1/zip",
      doc := "https://ngc.nvidia.com/catalog/models/nvidia:med:clara_pt_prostate_mri_segmentation",
      file_type := "zip", hash_type := "md5", hash_val := Option.none,
      model_file := "models/model.pt", config_file := Option.none },
    { id := "clara_pt_covid19_ct_lesion_segmentation_1",
      name := "clara_pt_covid19_ct_lesion_segmentation",
      url := "https://api.ngc.nvidia.com/v2/models/nvidia/med/clara_pt_covid19_ct_lesion_segmentation/versions/1/zip",
      doc := "https://ngc.nvidia.com/catalog/models/nvidia:med:clara_pt_covid19_ct_lesion_segmentation",
      file_type := "zip", hash_type := "md5", hash_val := Option.none,
      model_file := "models/model.pt", config_file := Option.none },
    { id := "clara_pt_fed_learning_brain_tumor_mri_segmentation_1",
      name := "clara_pt_fed_learning_brain_tumor_mri_segmentation",
      url := "https://api.ngc.nvidia.com/v2/models/nvidia/med/clara_pt_fed_learning_brain_tumor_mri_segmentation/versions/1/zip",
      doc := "https://ngc.nvidia.com/catalog/models/nvidia:med:clara_pt_fed_learning_brain_tumor_mri_segmentation",
      file_type := "zip", hash_type := "md5", hash_val := Option.none,
      model_file := "models/server/best_FL_global_model.pt", config_file := Option.none },
    { id := "clara_pt_pathology_metastasis_detection_1",
      name := "clara_pt_pathology_metastasis_detection",
      url := "https://api.ngc.nvidia.com/v2/models/nvidia/med/clara_pt_pathology_metastasis_detection/versions/1/zip",
      doc := "https://ngc.nvidia.com/catalog/models/nvidia:med:clara_pt_pathology_metastasis_detection",
      file_type := "zip", hash_type := "md5", hash_val := Option.none,
      model_file := "models/model.pt", config_file := some "config/config_train.json" },
    { id := "clara_pt_brain_mri_segmentation_1",
      name := "clara_pt_brain_mri_segmentation",
      url := "https://api.ngc.nvidia.com/v2/models/nvidia/med/clara_pt_brain_mri_segmentation/versions/1/zip",
      doc := "https://ngc.nvidia.com/catalog/models/nvidia:med:clara_pt_brain_mri_segmentation",
      file_type := "zip", hash_type := "md5", hash_val := Option.none,
      model_file := "models/model.pt", config_file := Option.none },
    { id := "clara_pt_brain_mri_segmentation_t1c_1",
      name := "clara_pt_brain_mri_segmentation_t1c",
      url := "https://api.ngc.nvidia.com/v2/models/nvidia/med/clara_pt_brain_mri_segmentation_t1c/versions/1/zip",
      doc := "https://ngc.nvidia.com/catalog/models/nvidia:med:clara_pt_brain_mri_segmentation_t1c",
      file_type := "zip", hash_type := "md5", hash_val := Option.none,
      model_file := "models/model.pt", config_file := Option.none },
    { id := "clara_pt_liver_and_tumor_ct_segmentation_1",
      name := "clara_pt_liver_and_tumor_ct_segmentation",
      url := "https://api.ngc.nvidia.com/v2/models/nvidia/med/clara_pt_liver_and_tumor_ct_segmentation/versions/1/zip",
      doc := "https://ngc.nvidia.com/catalog/models/nvidia:med:clara_pt_liver_and_tumor_ct_segmentation",
      file_type := "zip", hash_type := "md5", hash_val := Option.none,
      model_file := "models/model.pt", config_file := some "config/config_train.json" },
    { id := "clara_pt_pancreas_and_tumor_ct_segmentation_1",
      name := "clara_pt_pancreas_and_tumor_ct_segmentation",
      url := "https://api.ngc.nvidia.com/v2/models/nvidia/med/clara_pt_pancreas_and_tumor_ct_segmentation/versions/1/zip",
      doc := "https://ngc.nvidia.com/catalog/models/nvidia:med:clara_pt_pancreas_and_tumor_ct_segmentation",
      file_type := "zip", hash_type := "md5", hash_val := Option.none,
      model_file := "models/model.pt", config_file := some "config/config_train.json" } ]

/-- The characters for which Python `str.isspace()` holds — the set that
`str.strip()` with no argument removes (CPython's `Py_UNICODE_ISSPACE`
table): tab through carriage return (0x09–0x0d), the file/group/record/
unit separators (0x1c–0x1f), space, next-line 0x85, no-break space 0xa0,
ogham space mark 0x1680, the space separators 0x2000–0x200a, line and
paragraph separators 0x2028/0x2029, narrow no-break space 0x202f, medium
mathematical space 0x205f, and ideographic space 0x3000. -/
def isPySpace (c : Char) : Bool :=
  let n := c.toNat
  (0x09 ≤ n && n ≤ 0x0d) || n == 0x20 || (0x1c ≤ n && n ≤ 0x1f) ||
    n == 0x85 || n == 0xa0 || n == 0x1680 ||
    (0x2000 ≤ n && n ≤ 0x200a) || n == 0x2028 || n == 0x2029 ||
    n == 0x202f || n == 0x205f || n == 0x3000

/-- Python `str.strip()` (no argument: Unicode whitespace on both ends),
over the character list of the string so that it evaluates inside the
kernel. -/
def pyStrip (s : String) : String :=
  String.mk (((s.data.dropWhile isPySpace).reverse.dropWhile isPySpace).reverse)

/-- Python lowercasing of one character, as `str.lower()` applies it:
ASCII case folding, plus the Kelvin sign U+212A — the only Unicode code
point whose Python lowercase is an ASCII letter (`k`) — and the Angstrom
sign U+212B (→ U+00E5). Every other non-ASCII character either has no
lowercase, lowers to another non-ASCII character, or (U+0130 alone)
lowers to a two-character sequence containing the non-ASCII U+0307; the
ids of `MODEL_DESC` are pure ASCII `[a-z0-9_]` and none contains `k`, so
leaving those characters unchanged never alters whether a string matches
a table id under `normalizeId`. -/
def pyCharLower (c : Char) : Char :=
  if c.toNat == 0x212a then 'k'
  else if c.toNat == 0x212b then Char.ofNat 0xe5
  else Char.toLower c

/-- Python `str.lower()`, over the character list of the string so that it
evaluates inside the kernel. -/
def pyLower (s : String) : String :=
  String.mk (s.data.map pyCharLower)

/-- The key normalisation of `_get_model_spec`: `idx.strip().lower()`. -/
def normalizeId (s : String) : String := pyLower (pyStrip s)

/-- Failure of `_get_model_spec` on a string request: before raising
`ValueError`, the function prints the whole known table
(`Available specs are: ...`) for diagnostics; the failure value carries
that table together with the exception message. -/
structure SpecFailure : Type where
  available : List ModelDesc
  msg : String
deriving DecidableEq

/-- Embedding of `_get_model_spec` on a string argument: linear scan of
`MODEL_DESC` for the first case-insensitive, whitespace-trimmed match on
`id`; no match prints the table and raises `ValueError`. -/
def get_model_spec_str (idx : String) : Except SpecFailure ModelDesc :=
  match MODEL_DESC.find? (fun cand => normalizeId cand.id == normalizeId idx) with
  | some cand => Except.ok cand
  | Option.none => Except.error ⟨MODEL_DESC, "Unknown MODEL_DESC request: " ++ idx⟩

/-- Embedding of `_get_model_spec` on an integer argument:
`MODEL_DESC[idx]` with Python tuple-indexing semantics (negative indices
count from the end; out of range raises `IndexError`). -/
def get_model_spec_int (idx : Int) : Except String ModelDesc :=
  let n : Int := MODEL_DESC.length
  let j : Int := if idx < 0 then n + idx else idx
  if 0 ≤ j ∧ j < n then
    match MODEL_DESC.get? j.toNat with
    | some d => Except.ok d
    | Option.none => Except.error "IndexError: tuple index out of range"
  else Except.error "IndexError: tuple index out of range"

/-! ## Claims about the nested search `_get_val` -/

/-- C2: for every mapping `m` and key `k`, if `k` is a direct entry of `m`
then the nested search returns the direct entry `m[k]` immediately — in
particular the result is whatever the direct entry holds, irrespective of
any nested sub-mapping. -/
theorem c2_direct_hit (m : List (String × PyVal)) (k : String) (v d : PyVal)
    (h : lookup? m k = some v) : get_val m k d = v := by
  rw [get_val, h]

theorem c2_direct_hit_witness :
    lookup? [("a", PyVal.pydict [("b", PyVal.pydict [("model", PyVal.pyint 1)])]),
             ("model", PyVal.pyint 2)] "model" = some (PyVal.pyint 2) ∧
    get_val [("a", PyVal.pydict [("b", PyVal.pydict [("model", PyVal.pyint 1)])]),
             ("model", PyVal.pyint 2)] "model" PyVal.pynone = PyVal.pyint 2 :=
  ⟨rfl, c2_direct_hit _ "model" _ PyVal.pynone rfl⟩

theorem get_val_loop_eq_nested (k : String) (d : PyVal) :
    ∀ l : List (String × PyVal),
      get_val_loop l k d = ((nestedResults l k).find? (fun v => !v.isNone)).getD d := by
  intro l
  induction l with
  | nil => simp [get_val_loop, nestedResults]
  | cons e rest ih =>
    obtain ⟨a, v⟩ := e
    cases v with
    | pydict sub =>
      rw [get_val_loop]
      cases hf : (get_val sub k PyVal.pynone).isNone with
      | true => simp [hf, nestedResults, List.find?_cons, ih]
      | false => simp [hf, nestedResults, List.find?_cons]
    | pynone => simp [get_val_loop, nestedResults, List.find?_cons, ih]
    | pyint n => simp [get_val_loop, nestedResults, List.find?_cons, ih]
    | pystr s => simp [get_val_loop, nestedResults, List.find?_cons, ih]
    | pybool b => simp [get_val_loop, nestedResults, List.find?_cons, ih]

/-- C3: for every mapping `m` and key `k` that is not a direct entry of
`m`, the search recurses fully (depth-first) into each `Mapping`-valued
entry in iteration order and returns the first non-absent (`is not None`)
recursive result, else the default: the result equals the first
non-`None` element of `nestedResults m k` (the in-order list of full
recursive results). -/
theorem c3_depth_first_order (m : List (String × PyVal)) (k : String) (d : PyVal)
    (h : lookup? m k = Option.none) :
    get_val m k d = ((nestedResults m k).find? (fun v => !v.isNone)).getD d := by
  rw [get_val, h]
  exact get_val_loop_eq_nested k d m

theorem c3_depth_first_order_witness :
    lookup? [("a", PyVal.pydict [("model", PyVal.pyint 1)]),
             ("b", PyVal.pydict [("model", PyVal.pyint 2)])] "model" = Option.none ∧
    get_val [("a", PyVal.pydict [("model", PyVal.pyint 1)]),
             ("b", PyVal.pydict [("model", PyVal.pyint 2)])] "model" PyVal.pynone =
      PyVal.pyint 1 := by
  refine ⟨rfl, ?_⟩
  have h := c3_depth_first_order
    [("a", PyVal.pydict [("model", PyVal.pyint 1)]),
     ("b", PyVal.pydict [("model", PyVal.pyint 2)])] "model" PyVal.pynone rfl
  rw [h]
  simp [nestedResults, get_val, lookup?, List.find?_cons, PyVal.isNone]

/-- C10: with a recursion-depth budget bounded by the size of the (finite,
acyclic, inductively given) input, the budgeted version of `_get_val`
terminates with the same answer as the total embedding: the recursion
always bottoms out because every recursive call descends into a strictly
smaller sub-mapping. -/
theorem c10_termination (m : List (String × PyVal)) (k : String) (d : PyVal) :
    get_valF (sizeOf m) m k d = some (get_val m k d) :=
  get_valF_complete (sizeOf m) m k d (le_refl _)

theorem lookup?_eq_none_of_not_hasKeyDeep :
    ∀ (m : List (String × PyVal)) (k : String),
      hasKeyDeep m k = false → lookup? m k = Option.none := by
  intro m k
  induction m with
  | nil => intro _; rfl
  | cons e rest ih =>
    obtain ⟨a, v⟩ := e
    intro h
    rw [hasKeyDeep] at h
    simp only [Bool.or_eq_false_iff] at h
    have ha : ¬(a = k) := by
      intro hak
      rw [hak] at h
      simpa using h.1.1
    simp [lookup?, ha, ih h.2]

theorem get_val_loopF_of_not_hasKeyDeep (f : Nat)
    (ih : ∀ (m : List (String × PyVal)) (k : String) (d : PyVal),
      hasKeyDeep m k = false →
      get_valF f m k d = Option.none ∨ get_valF f m k d = some d)
    (k : String) :
    ∀ (l : List (String × PyVal)) (d : PyVal), hasKeyDeep l k = false →
      get_val_loopF (fun sub => get_valF f sub k PyVal.pynone) l d = Option.none ∨
      get_val_loopF (fun sub => get_valF f sub k PyVal.pynone) l d = some d := by
  intro l
  induction l with
  | nil => intro d _; exact Or.inr rfl
  | cons e rest ihl =>
    intro d h
    obtain ⟨a, v⟩ := e
    rw [hasKeyDeep] at h
    simp only [Bool.or_eq_false_iff] at h
    cases v with
    | pydict sub =>
      have hsub : hasKeyDeep sub k = false := by
        have h2 := h.1.2; rwa [hasKeyDeepV] at h2
      rcases ih sub k PyVal.pynone hsub with hnone | hsome
      · simp only [get_val_loopF]
        rw [hnone]
        exact Or.inl rfl
      · simp only [get_val_loopF]
        rw [hsome]
        simpa [PyVal.isNone] using ihl d h.2
    | pynone => simp only [get_val_loopF]; exact ihl d h.2
    | pyint n => simp only [get_val_loopF]; exact ihl d h.2
    | pystr s => simp only [get_val_loopF]; exact ihl d h.2
    | pybool b => simp only [get_val_loopF]; exact ihl d h.2

theorem get_valF_of_not_hasKeyDeep :
    ∀ (fuel : Nat) (m : List (String × PyVal)) (k : String) (d : PyVal),
      hasKeyDeep m k = false →
      get_valF fuel m k d = Option.none ∨ get_valF fuel m k d = some d := by
  intro fuel
  induction fuel with
  | zero => intro m k d _; exact Or.inl rfl
  | succ f ih =>
    intro m k d h
    rw [get_valF, lookup?_eq_none_of_not_hasKeyDeep m k h]
    exact get_val_loopF_of_not_hasKeyDeep f ih k m d h

theorem get_val_of_not_hasKeyDeep (m : List (String × PyVal)) (k : String) (d : PyVal)
    (h : hasKeyDeep m k = false) : get_val m k d = d := by
  have hc := get_valF_complete (sizeOf m) m k d (le_refl _)
  rcases get_valF_of_not_hasKeyDeep (sizeOf m) m k d h with hnone | hsome
  · rw [hnone] at hc; cases hc
  · rw [hsome] at hc
    exact (Option.some.injEq _ _ ▸ hc).symm

/-- C4 counterexample: the claim "a found null/empty value is never
confused with absence" fails on the code. The mapping
`[("a", dict [("model", None)])]` does contain a (null) value for key
`model` at depth one, yet `_get_val` returns the default — the very same
output it produces on `[("a", dict [])]`, which has no `model` key at any
depth — because the recursion treats a returned `None` as "not found". -/
theorem c4_not_found_counterexample :
    hasKeyDeep [("a", PyVal.pydict [("model", PyVal.pynone)])] "model" = true ∧
    get_val [("a", PyVal.pydict [("model", PyVal.pynone)])] "model" emptyDict = emptyDict ∧
    get_val [("a", PyVal.pydict [])] "model" emptyDict = emptyDict := by
  refine ⟨?_, ?_, ?_⟩
  · simp [hasKeyDeep, hasKeyDeepV]
  · simp [get_val, get_val_loop, lookup?, PyVal.isNone]
  · simp [get_val, get_val_loop, lookup?, PyVal.isNone]

/-- C4 (amended): for every mapping with no entry for the searched key at
any depth, the nested search returns the distinguished default ("not
found"); however, a null value found only in a nested sub-mapping is also
reported as the default — i.e. a nested found `None` is indistinguishable
from absence (the recursion uses `None` as its own absence sentinel), so
only non-null found values are distinguishable from absence. -/
theorem c4_not_found_amended :
    (∀ (m : List (String × PyVal)) (k : String) (d : PyVal),
      hasKeyDeep m k = false → get_val m k d = d) ∧
    (∀ (a k : String) (d : PyVal), a ≠ k →
      hasKeyDeep [(a, PyVal.pydict [(k, PyVal.pynone)])] k = true ∧
      get_val [(a, PyVal.pydict [(k, PyVal.pynone)])] k d = d) := by
  constructor
  · exact get_val_of_not_hasKeyDeep
  · intro a k d hne
    constructor
    · simp [hasKeyDeep, hasKeyDeepV]
    · simp [get_val, get_val_loop, lookup?, hne, PyVal.isNone]

theorem c4_not_found_amended_witness :
    get_val [("x", PyVal.pyint 5)] "model" emptyDict = emptyDict ∧
    get_val [("a", PyVal.pydict [("model", PyVal.pynone)])] "model" emptyDict = emptyDict := by
  constructor
  · exact c4_not_found_amended.1 [("x", PyVal.pyint 5)] "model" emptyDict
      (by simp [hasKeyDeep, hasKeyDeepV])
  · exact (c4_not_found_amended.2 "a" "model" emptyDict (by decide)).2

/-! ## Claims about the configuration-source priority of `load_from_mmar` -/

/-- C1 counterexample: the claim "whenever searching `train_conf` for the
model key yields a result, the JSON config file is never opened" fails on
the code. Here `train_conf` holds the model key as a direct entry (the
search yields that entry), but the found value is the empty dict, which is
falsy, so `load_from_mmar` proceeds to open the sibling JSON config file —
and the whole call fails when that file cannot be read. -/
theorem c1_priority_counterexample :
    lookup? [("model", PyVal.pydict [])] "model" = some (PyVal.pydict []) ∧
    (resolveConfig [("train_conf", PyVal.pydict [("model", PyVal.pydict [])])]
        JsonSource.unreadable "model" Option.none (some "models/model.pt")).openedJson
      = true ∧
    (resolveConfig [("train_conf", PyVal.pydict [("model", PyVal.pydict [])])]
        JsonSource.unreadable "model" Option.none (some "models/model.pt")).result
      = Except.error jsonOpenError := by
  refine ⟨rfl, ?_, ?_⟩ <;>
    simp [resolveConfig, step1, lookup?, get_val, emptyDict, truthy]

/-- C1 (amended): the three configuration sources are consulted in strict
order, and whenever searching the `train_conf` entry for the model key
yields a truthy result (Python truthiness is what the code tests), the
sibling JSON config file is never opened and the raw weights dictionary is
never searched: the outcome is computed from the step-1 result alone, for
every state of the JSON source — including one whose read would fail. -/
theorem c1_priority_amended (md : List (String × PyVal)) (json : JsonSource)
    (k : String) (cf mf : Option String) (c1 : PyVal)
    (h1 : step1 md k = Except.ok c1) (h2 : truthy c1 = true) :
    resolveConfig md json k cf mf = ⟨finalCheck cf mf c1, false, false⟩ := by
  simp [resolveConfig, h1, h2]

theorem c1_priority_amended_witness :
    step1 [("train_conf", PyVal.pydict [("model", PyVal.pydict [("name", PyVal.pystr "UNet")])])]
        "model" = Except.ok (PyVal.pydict [("name", PyVal.pystr "UNet")]) ∧
    resolveConfig [("train_conf", PyVal.pydict [("model", PyVal.pydict [("name", PyVal.pystr "UNet")])])]
        JsonSource.unreadable "model" Option.none (some "models/model.pt") =
      ⟨Except.ok (PyVal.pydict [("name", PyVal.pystr "UNet")]), false, false⟩ := by
  have h1 : step1 [("train_conf", PyVal.pydict [("model", PyVal.pydict [("name", PyVal.pystr "UNet")])])]
      "model" = Except.ok (PyVal.pydict [("name", PyVal.pystr "UNet")]) := by
    simp [step1, lookup?, get_val, emptyDict]
  refine ⟨h1, ?_⟩
  have h := c1_priority_amended _ JsonSource.unreadable "model" Option.none
    (some "models/model.pt") _ h1 rfl
  rw [h]
  simp [finalCheck, truthy, PyVal.isMapping]

/-- C5: with `weights_only=True` and a model file not ending in `.ts`,
`load_from_mmar` returns the `model_key` sub-entry of the loaded weights
dictionary if present, else the whole dictionary, unchanged — and stops
there: the outcome is `LoadResult.weights` (no config search, no class
resolution, no instantiation) for every state of the JSON config source,
including one whose read would fail. -/
theorem c5_weights_only (model_file_path : String) (pretrained : Bool)
    (md : List (String × PyVal)) (json : JsonSource) (k : String)
    (cf mf : Option String) (h : pyEndsWith model_file_path ".ts" = false) :
    load_from_mmar_core model_file_path pretrained true md json k cf mf =
      LoadResult.weights ((lookup? md k).getD (PyVal.pydict md)) := by
  simp [load_from_mmar_core, h]

theorem c5_weights_only_witness :
    (pyEndsWith "models/model.pt" ".ts" = false) ∧
    load_from_mmar_core "models/model.pt" true true [("model", PyVal.pyint 3)]
        JsonSource.unreadable "model" Option.none (some "models/model.pt") =
      LoadResult.weights (PyVal.pyint 3) := by
  refine ⟨by decide, ?_⟩
  have h := c5_weights_only "models/model.pt" true [("model", PyVal.pyint 3)]
    JsonSource.unreadable "model" Option.none (some "models/model.pt") (by decide)
  simpa [lookup?] using h

/-- C8: when the model-file path ends with `.ts`, `load_from_mmar` returns
the object produced by `torch.jit.load` (modelled as
`LoadResult.scriptModule`), ignoring `pretrained` and `weights_only`; it
emits a warning for each ignored option (`pretrained=False` or
`weights_only=True`) and never turns those conditions into a fatal error —
the outcome is the script module with exactly those warnings, for every
combination of the options. -/
theorem c8_script_module_warnings (model_file_path : String)
    (pretrained weights_only : Bool) (md : List (String × PyVal))
    (json : JsonSource) (k : String) (cf mf : Option String)
    (h : pyEndsWith model_file_path ".ts" = true) :
    load_from_mmar_core model_file_path pretrained weights_only md json k cf mf =
      LoadResult.scriptModule
        ((if pretrained then [] else [pretrainedWarning]) ++
          (if weights_only then [weightsOnlyWarning] else [])) := by
  simp [load_from_mmar_core, h]

theorem c8_script_module_warnings_witness :
    (pyEndsWith "models/model.ts" ".ts" = true) ∧
    load_from_mmar_core "models/model.ts" false true [] JsonSource.unreadable
        "model" Option.none (some "models/model.ts") =
      LoadResult.scriptModule [pretrainedWarning, weightsOnlyWarning] := by
  refine ⟨by decide, ?_⟩
  have h := c8_script_module_warnings "models/model.ts" false true []
    JsonSource.unreadable "model" Option.none (some "models/model.ts") (by decide)
  simpa using h

theorem finalCheck_ok {cf mf : Option String} {x c : PyVal}
    (h : finalCheck cf mf x = Except.ok c) :
    truthy c = true ∧ c.isMapping = true := by
  rw [finalCheck] at h
  by_cases hg : (truthy x && x.isMapping) = true
  · rw [if_pos hg] at h
    cases h
    simpa using hg
  · rw [if_neg hg] at h
    cases h

/-- C7: if all three configuration sources yield nothing (falsy results
throughout), or the discovered configuration value is truthy but not
itself a mapping (discovered at step 1, 2 or 3 — the fourth, fifth and
sixth conjuncts), the search fails with the `ValueError` whose message
interpolates the descriptor's config-file entry and model-file entry;
when both entries are present the message textually names both paths.
Conversely a successful outcome is always a truthy mapping. -/
theorem c7_config_error :
    (∀ (md conf : List (String × PyVal)) (k : String) (cf mf : Option String)
        (c1 : PyVal),
      step1 md k = Except.ok c1 → truthy c1 = false →
      truthy (get_val conf k emptyDict) = false →
      truthy (get_val md k emptyDict) = false →
      (resolveConfig md (JsonSource.avail conf) k cf mf).result =
        Except.error (configErrorMsg cf mf)) ∧
    (∀ (md : List (String × PyVal)) (json : JsonSource) (k : String)
        (cf mf : Option String) (c : PyVal),
      (resolveConfig md json k cf mf).result = Except.ok c →
      truthy c = true ∧ c.isMapping = true) ∧
    (∀ cf mf : String, ∃ a b c : String,
      configErrorMsg (some cf) (some mf) = a ++ cf ++ b ++ mf ++ c) ∧
    (∀ (md : List (String × PyVal)) (json : JsonSource) (k : String)
        (cf mf : Option String) (c1 : PyVal),
      step1 md k = Except.ok c1 → truthy c1 = true → c1.isMapping = false →
      (resolveConfig md json k cf mf).result =
        Except.error (configErrorMsg cf mf)) ∧
    (∀ (md conf : List (String × PyVal)) (k : String) (cf mf : Option String)
        (c1 : PyVal),
      step1 md k = Except.ok c1 → truthy c1 = false →
      truthy (get_val conf k emptyDict) = true →
      (get_val conf k emptyDict).isMapping = false →
      (resolveConfig md (JsonSource.avail conf) k cf mf).result =
        Except.error (configErrorMsg cf mf)) ∧
    (∀ (md conf : List (String × PyVal)) (k : String) (cf mf : Option String)
        (c1 : PyVal),
      step1 md k = Except.ok c1 → truthy c1 = false →
      truthy (get_val conf k emptyDict) = false →
      truthy (get_val md k emptyDict) = true →
      (get_val md k emptyDict).isMapping = false →
      (resolveConfig md (JsonSource.avail conf) k cf mf).result =
        Except.error (configErrorMsg cf mf)) := by
  refine ⟨?_, ?_, ?_, ?_, ?_, ?_⟩
  · intro md conf k cf mf c1 h1 h2 h3 h4
    simp [resolveConfig, h1, h2, h3, finalCheck, h4]
  · intro md json k cf mf c h
    simp only [resolveConfig] at h
    cases hs : step1 md k with
    | error e =>
      simp only [hs] at h
      exact Except.noConfusion h
    | ok c1 =>
      simp only [hs] at h
      by_cases ht : truthy c1 = true
      · rw [if_pos ht] at h
        exact finalCheck_ok h
      · rw [if_neg ht] at h
        cases json with
        | unreadable => simp at h
        | avail conf =>
          simp only at h
          by_cases ht2 : truthy (get_val conf k emptyDict) = true
          · rw [if_pos ht2] at h
            exact finalCheck_ok h
          · rw [if_neg ht2] at h
            exact finalCheck_ok h
  · intro cf mf
    exact ⟨"Could not load model config dictionary from config: ",
      ", or from model file: ", ".", rfl⟩
  · intro md json k cf mf c1 h1 h2 h3
    simp [resolveConfig, h1, h2, finalCheck, h3]
  · intro md conf k cf mf c1 h1 h2 h3 h4
    simp [resolveConfig, h1, h2, h3, finalCheck, h4]
  · intro md conf k cf mf c1 h1 h2 h3 h4 h5
    simp [resolveConfig, h1, h2, h3, h4, finalCheck, h5]

theorem c7_config_error_witness :
    (resolveConfig [] (JsonSource.avail []) "model"
        (some "config/config_train.json") (some "models/model.pt")).result =
      Except.error (configErrorMsg (some "config/config_train.json")
        (some "models/model.pt")) ∧
    (resolveConfig [("train_conf", PyVal.pydict [("model", PyVal.pyint 5)])]
        JsonSource.unreadable "model" Option.none (some "models/model.pt")).result =
      Except.error (configErrorMsg Option.none (some "models/model.pt")) := by
  constructor
  · have hstep : step1 [] "model" = Except.ok emptyDict := by
      simp [step1, lookup?, get_val, get_val_loop, emptyDict]
    have hval : truthy (get_val [] "model" emptyDict) = false := by
      simp [get_val, get_val_loop, lookup?, emptyDict, truthy]
    exact c7_config_error.1 [] [] "model" (some "config/config_train.json")
      (some "models/model.pt") emptyDict hstep rfl hval hval
  · have hstep : step1 [("train_conf", PyVal.pydict [("model", PyVal.pyint 5)])]
        "model" = Except.ok (PyVal.pyint 5) := by
      simp [step1, lookup?, get_val, emptyDict]
    exact c7_config_error.2.2.2.1
      [("train_conf", PyVal.pydict [("model", PyVal.pyint 5)])]
      JsonSource.unreadable "model" Option.none (some "models/model.pt")
      (PyVal.pyint 5) hstep rfl rfl

/-! ## Claims about descriptor resolution -/

theorem nodupNormIds : (MODEL_DESC.map (fun c => normalizeId c.id)).Nodup := by
  decide

theorem find_norm_eq {l : List ModelDesc} {d : ModelDesc} {s : String}
    (hnd : (l.map (fun c => normalizeId c.id)).Nodup) (hmem : d ∈ l)
    (heq : normalizeId s = normalizeId d.id) :
    l.find? (fun cand => normalizeId cand.id == normalizeId s) = some d := by
  induction l with
  | nil => cases hmem
  | cons c rest ih =>
    simp only [List.map_cons, List.nodup_cons] at hnd
    rcases List.mem_cons.mp hmem with hdc | hmem2
    · subst hdc
      have hp : (normalizeId d.id == normalizeId s) = true := by
        rw [heq]
        exact beq_self_eq_true _
      simp only [List.find?]
      rw [hp]
    · have hne : (normalizeId c.id == normalizeId s) = false := by
        rw [beq_eq_false_iff_ne]
        intro hcontra
        refine hnd.1 ?_
        rw [hcontra, heq]
        exact List.mem_map_of_mem (fun c => normalizeId c.id) hmem2
      simp only [List.find?]
      rw [hne]
      exact ih hnd.2 hmem2

/-- C6: descriptor lookup by any string equal, up to ASCII letter case and
surrounding whitespace, to the id of a table entry returns that entry (the
linear scan finds it, the normalised ids of the table being pairwise
distinct); a string matching no id fails with the "Unknown MODEL_DESC
request" error, carrying the printed table of known descriptors for
diagnostics. -/
theorem c6_descriptor_lookup :
    (∀ (s : String) (d : ModelDesc), d ∈ MODEL_DESC →
      normalizeId s = normalizeId d.id → get_model_spec_str s = Except.ok d) ∧
    (∀ s : String, (∀ d ∈ MODEL_DESC, normalizeId s ≠ normalizeId d.id) →
      get_model_spec_str s =
        Except.error ⟨MODEL_DESC, "Unknown MODEL_DESC request: " ++ s⟩) := by
  constructor
  · intro s d hmem heq
    rw [get_model_spec_str, find_norm_eq nodupNormIds hmem heq]
  · intro s hall
    rw [get_model_spec_str, List.find?_eq_none.mpr]
    intro d hmem
    simp only [beq_eq_false_iff_ne, ne_eq, Bool.not_eq_true]
    exact fun hcontra => hall d hmem (hcontra.symm)

theorem c6_descriptor_lookup_witness :
    get_model_spec_str "  CLARA_PT_PROSTATE_MRI_SEGMENTATION_1 " =
      Except.ok
        { id := "clara_pt_prostate_mri_segmentation_1",
          name := "clara_pt_prostate_mri_segmentation",
          url := "https://api.ngc.nvidia.com/v2/models/nvidia/med/clara_pt_prostate_mri_segmentation/versions/1/zip",
          doc := "https://ngc.nvidia.com/catalog/models/nvidia:med:clara_pt_prostate_mri_segmentation",
          file_type := "zip", hash_type := "md5", hash_val := Option.none,
          model_file := "models/model.pt", config_file := Option.none } ∧
    get_model_spec_str "no_such_model" =
      Except.error ⟨MODEL_DESC, "Unknown MODEL_DESC request: no_such_model"⟩ := by
  constructor
  · exact c6_descriptor_lookup.1 _ _ (by decide) (by decide)
  · exact c6_descriptor_lookup.2 _ (by decide)

/-- C9: `_get_model_spec` accepts negative integer indices with Python
tuple-indexing semantics: for `-len(MODEL_DESC) ≤ i < 0` it returns the
descriptor at position `len(MODEL_DESC) + i`, not an out-of-range
error. -/
theorem c9_negative_index (i : Int) (h1 : -(MODEL_DESC.length : Int) ≤ i)
    (h2 : i < 0) :
    ∃ d, MODEL_DESC.get? ((MODEL_DESC.length : Int) + i).toNat = some d ∧
      get_model_spec_int i = Except.ok d := by
  have hlen : MODEL_DESC.length = 8 := by decide
  rw [hlen] at h1 ⊢
  have h1' : (-8 : Int) ≤ i := by exact_mod_cast h1
  interval_cases i <;> exact ⟨_, rfl, rfl⟩

theorem c9_negative_index_witness :
    ∃ d, MODEL_DESC.get? ((MODEL_DESC.length : Int) + (-1)).toNat = some d ∧
      get_model_spec_int (-1) = Except.ok d :=
  c9_negative_index (-1) (by decide) (by decide)

end Mmars
